import Mathlib

/-!
Shallow embedding of the "Take Time" card game (authoritative game-state
machine, replication handlers, bot selector, deal and resolution logic).
Definitions are translated from the TypeScript source:
`src/utils/gameUtils.ts`, the mission registry and app component in
`src/unnamed/part_001` / `src/unnamed/part_002`.
-/

namespace TakeTime

/-- `CardType` from `src/types` (two suits). -/
inductive CardType where
  | SOLAR : CardType
  | LUNAR : CardType
deriving DecidableEq, Repr

/-- `Card` from `src/types`: identity, suit, value, face flag, optional owner. -/
structure Card where
  id : String
  type : CardType
  value : Nat
  isFaceUp : Bool
  ownerId : Option String := none
deriving DecidableEq, Repr

/-- `ClockSegment` from `src/types`: a board slot with its ordered played cards. -/
structure ClockSegment where
  index : Nat
  cards : List Card
deriving DecidableEq, Repr

/-- `Player` from `src/types`. -/
structure Player where
  id : String
  name : String
  hand : List Card
  isLocal : Bool
deriving DecidableEq, Repr

/-- `ExtendedGamePhase` from the app component (`src/unnamed/part_002`). -/
inductive ExtendedGamePhase where
  | LOBBY : ExtendedGamePhase
  | SETUP : ExtendedGamePhase
  | START_PLAYER_SELECTION : ExtendedGamePhase
  | PLACEMENT : ExtendedGamePhase
  | RESOLUTION : ExtendedGamePhase
deriving DecidableEq, Repr

/-- `ValidationResult` from `src/types`. -/
structure ValidationResult where
  passed : Bool
  message : Option String := none
deriving DecidableEq, Repr

/-- A resolution verdict `{index, passed, message}` as built by the
resolution loop in `src/unnamed/part_002` (message is a plain string,
defaulting to the empty string). -/
structure ResolutionResult where
  index : Nat
  passed : Bool
  message : String
deriving DecidableEq, Repr

/-- `ClockDefinition` from `src/types`: a mission. The optional maps
`segmentRules` (slot index to rule) and the optional `globalRules` /
`placementRestriction` functions are modelled with `Option`. Presentation
fields (`name`, `chapter`, `description`, `visualHints`) are omitted: no
game logic reads them. -/
structure ClockDefinition where
  id : String
  startingSegmentIndex : Nat
  maxTotal : Option Nat := none
  segmentRules : Nat → Option (ClockSegment → ValidationResult)
  globalRules : Option (List ClockSegment → ValidationResult) := none
  placementRestriction : Option (Card → Nat → List ClockSegment → Nat → ValidationResult) := none

/-- `TOTAL_SEGMENTS` from `src/constants`. -/
def TOTAL_SEGMENTS : Nat := 6

/-- `sumCards` from `src/constants`. -/
def sumCards (cards : List Card) : Nat :=
  cards.foldl (fun acc c => acc + c.value) 0

/-- Reading `segments[i]`; all call sites in the source index into the
six-slot board, so the default is never reached in the modelled states. -/
def segAt (segments : List ClockSegment) (i : Nat) : ClockSegment :=
  segments.getD i { index := i, cards := [] }

/-- The per-participant deal size of `dealCards` (`src/utils/gameUtils.ts`):
default 4, overridden to 3 at four players and 6 at two players. -/
def cardsPerPlayer (playerCount : Nat) : Nat :=
  if playerCount = 4 then 3 else if playerCount = 2 then 6 else 4

/-- `dealCards` from `src/utils/gameUtils.ts`. The source's nested loop
hands player `p` the consecutive block of the deck starting at
`p * cardsPerPlayer`, stopping silently at the end of the deck, which is
exactly `(deck.drop (p * k)).take k`. -/
def dealCards (deck : List Card) (playerCount : Nat) : List (List Card) :=
  (List.range playerCount).map
    (fun p => (deck.drop (p * cardsPerPlayer playerCount)).take (cardsPerPlayer playerCount))

/-- The unshuffled 24-card pool built by `createDeck`
(`src/utils/gameUtils.ts`) before shuffling; the identity permutation is
one possible shuffle outcome. -/
def createDeckPool : List Card :=
  ((List.range 12).map (fun i =>
    { id := "s-" ++ toString (i + 1), type := CardType.SOLAR, value := i + 1,
      isFaceUp := false, ownerId := none }))
  ++ ((List.range 12).map (fun i =>
    { id := "l-" ++ toString (i + 1), type := CardType.LUNAR, value := i + 1,
      isFaceUp := false, ownerId := none }))

/-- `isValidMove` from `src/utils/gameUtils.ts`. -/
def isValidMove (card : Card) (segmentIndex : Nat) (segments : List ClockSegment)
    (definition : ClockDefinition) (cardsPlayedTotal : Nat) : Bool :=
  match definition.placementRestriction with
  | some f => (f card segmentIndex segments cardsPlayedTotal).passed
  | none => true

/-- A bot move candidate `{card, segmentIndex}`. -/
structure BotMove where
  card : Card
  segmentIndex : Nat
deriving DecidableEq, Repr

/-- The `validMoves` list accumulated by `findBestBotMove`: every card of
the hand paired with every segment index that passes `isValidMove`, in
hand order then segment order. -/
def validBotMoves (hand : List Card) (segments : List ClockSegment)
    (definition : ClockDefinition) (cardsPlayedTotal : Nat) : List BotMove :=
  hand.flatMap (fun card =>
    ((List.range TOTAL_SEGMENTS).filter
        (fun i => isValidMove card i segments definition cardsPlayedTotal)).map
      (fun i => { card := card, segmentIndex := i }))

/-- `findBestBotMove` from `src/utils/gameUtils.ts`. The two calls to
`Math.random` are modelled by the extra arguments `randPick` (choice among
the valid moves) and `randSeg` (fallback segment); `Math.floor (r * n)`
yields a value in `[0, n)`, modelled as `_ % n`. -/
def findBestBotMove (hand : List Card) (segments : List ClockSegment)
    (definition : ClockDefinition) (cardsPlayedTotal : Nat)
    (randPick randSeg : Nat) : Option BotMove :=
  let validMoves := validBotMoves hand segments definition cardsPlayedTotal
  if validMoves.length > 0 then
    validMoves.get? (randPick % validMoves.length)
  else
    match hand with
    | [] => none
    | c :: _ => some { card := c, segmentIndex := randSeg % TOTAL_SEGMENTS }

/-- The slot visited at loop counter `i` of `validateClock`'s `for` loop:
`(definition.startingSegmentIndex + i) % TOTAL_SEGMENTS`. -/
def rotIdx (definition : ClockDefinition) (i : Nat) : Nat :=
  (definition.startingSegmentIndex + i) % TOTAL_SEGMENTS

/-- The ascending-order check of iteration `i` of `validateClock`: skipped
at `i = 0`; otherwise a failure entry when the current slot's sum drops
below the previous visited slot's. (The loop variable `previousSum`
always equals the previously visited slot's sum, being reassigned
unconditionally every iteration.) -/
def ascendCheck (segments : List ClockSegment) (definition : ClockDefinition)
    (i : Nat) : List ValidationResult :=
  if i = 0 then []
  else if sumCards (segAt segments (rotIdx definition i)).cards
      < sumCards (segAt segments (rotIdx definition (i - 1))).cards then
    [{ passed := false,
       message := some ("Ascending violation at Segment "
         ++ toString (rotIdx definition i + 1) ++ " (Sum: "
         ++ toString (sumCards (segAt segments (rotIdx definition i)).cards)
         ++ ") vs previous (Sum: "
         ++ toString (sumCards (segAt segments (rotIdx definition (i - 1))).cards)
         ++ ").") }]
  else []

/-- The sum-ceiling check of iteration `i` of `validateClock`. The guard
`definition.maxTotal && ...` of the source is JavaScript truthiness, so a
`maxTotal` of `0` disables the check, hence the `m ≠ 0` conjunct. -/
def maxTotalCheck (segments : List ClockSegment) (definition : ClockDefinition)
    (i : Nat) : List ValidationResult :=
  match definition.maxTotal with
  | some m =>
      if m ≠ 0 ∧ m < sumCards (segAt segments (rotIdx definition i)).cards then
        [{ passed := false,
           message := some ("Segment " ++ toString (rotIdx definition i + 1) ++ " sum ("
             ++ toString (sumCards (segAt segments (rotIdx definition i)).cards)
             ++ ") exceeds limit of " ++ toString m ++ ".") }]
      else []
  | none => []

/-- The per-slot rule check of iteration `i` of `validateClock`: the
mission's rule for the visited slot, when present, contributes its own
failure result. -/
def segmentRuleCheck (segments : List ClockSegment) (definition : ClockDefinition)
    (i : Nat) : List ValidationResult :=
  match definition.segmentRules (rotIdx definition i) with
  | some rule =>
      if (rule (segAt segments (rotIdx definition i))).passed then []
      else [rule (segAt segments (rotIdx definition i))]
  | none => []

/-- One iteration of the `for` loop of `validateClock`
(`src/utils/gameUtils.ts`): the ascending check, the ceiling check and the
slot-rule check, contributing failures in that push order. -/
def validateStep (segments : List ClockSegment) (definition : ClockDefinition)
    (i : Nat) : List ValidationResult :=
  ascendCheck segments definition i ++ maxTotalCheck segments definition i
    ++ segmentRuleCheck segments definition i

/-- The failure entries accumulated by `validateClock` in push order:
per-slot emptiness first, then the six loop iterations, then the global
rule. -/
def validateFailures (segments : List ClockSegment) (definition : ClockDefinition) :
    List ValidationResult :=
  ((segments.filter (fun seg => seg.cards.isEmpty)).map
    (fun seg =>
      { passed := false,
        message := some ("Segment " ++ toString (seg.index + 1) ++ " is empty.") }))
  ++ ((List.range TOTAL_SEGMENTS).flatMap (validateStep segments definition))
  ++ (match definition.globalRules with
      | some g => if (g segments).passed then [] else [g segments]
      | none => [])

/-- `validateClock` from `src/utils/gameUtils.ts`: the failure list, or a
single success entry when no check failed. -/
def validateClock (segments : List ClockSegment) (definition : ClockDefinition) :
    List ValidationResult :=
  if validateFailures segments definition = [] then
    [{ passed := true, message := some ("Clock Validated Successfully!") }]
  else validateFailures segments definition

/-- The authoritative state held in `gameStateRef` by the app component
(`src/unnamed/part_002`). The executable mission (`activeClockDef`) is not
a field here: it holds functions and is resolved separately from
`clockDefId` via the shared registry, so the handlers below take the
`ClockDefinition` as an explicit argument where the source reads
`gameStateRef.current.activeClockDef`. -/
structure GameState where
  phase : ExtendedGamePhase
  clockDefId : String
  clockSegments : List ClockSegment
  players : List Player
  currentPlayerIndex : Nat
  faceUpTokensUsed : Nat
  cardsPlayedCount : Nat
  resolutionStep : Int
  resolutionResults : List ResolutionResult
  systemMessage : String
deriving DecidableEq, Repr

/-- Fallback `Player` used to read list entries the source indexes
directly (all modelled accesses are in bounds). -/
def dummyPlayer : Player :=
  { id := "", name := "", hand := [], isLocal := false }

/-- The turn advance of `executePlayCard`: JavaScript `findIndex` yields
`-1` when `playerId` matches no player, and `(-1 + 1) % n = 0`; for a
found index `i` the next index is `(i + 1) % n`. -/
def jsMoverNextIndex (players : List Player) (playerId : String) : Nat :=
  match players.findIdx? (fun p => p.id == playerId) with
  | some i => (i + 1) % players.length
  | none => 0

/-- `executePlayCard` from `src/unnamed/part_002` (lines 533-591), the
host's unconditional move mutation: remove the card id from the mover's
hand, append the card (face flag and owner resolved) to the target
segment, bump the counters, advance the turn to the mover's successor,
and switch to RESOLUTION when every hand is empty. It performs no phase,
turn, card-ownership or face-up-limit check. (The source also assigns
`newSegments[segmentIndex]`; `List.set` models this for in-range indices,
which covers every modelled call.) -/
def executePlayCard (curr : GameState) (playerId : String) (card : Card)
    (segmentIndex : Nat) (faceUp : Bool) : GameState :=
  let newPlayers := curr.players.map (fun p =>
    if p.id == playerId then
      { p with hand := p.hand.filter (fun c => c.id != card.id) }
    else p)
  let playedCard := { card with isFaceUp := faceUp, ownerId := some playerId }
  let oldSeg := segAt curr.clockSegments segmentIndex
  let newSegments :=
    curr.clockSegments.set segmentIndex { oldSeg with cards := oldSeg.cards ++ [playedCard] }
  let newFaceUpCount := if faceUp then curr.faceUpTokensUsed + 1 else curr.faceUpTokensUsed
  let newCount := curr.cardsPlayedCount + 1
  let nextIdx := jsMoverNextIndex curr.players playerId
  let allEmpty := newPlayers.all (fun p => p.hand.isEmpty)
  let nextPhase := if allEmpty then ExtendedGamePhase.RESOLUTION else curr.phase
  { curr with
      phase := nextPhase
      players := newPlayers
      clockSegments := newSegments
      currentPlayerIndex := nextIdx
      faceUpTokensUsed := newFaceUpCount
      cardsPlayedCount := newCount }

/-- The `MOVE` branch of `handleIncomingDataHost` (`src/unnamed/part_002`
lines 248-254): a network move is passed straight to `executePlayCard`
with no validation of any kind. -/
def handleMoveHost (curr : GameState) (playerId : String) (card : Card)
    (segmentIndex : Nat) (faceUp : Bool) : GameState :=
  executePlayCard curr playerId card segmentIndex faceUp

/-- `startGamePhase` from `src/unnamed/part_002` (lines 429-466): guard
`!current.players[startIndex]`, then switch to PLACEMENT with the claimant
as current player and the transient starter message. (The delayed
message-clearing broadcast is a separate timer event, not part of this
transition.) -/
def startGamePhase (curr : GameState) (startIndex : Nat) : GameState :=
  match curr.players.get? startIndex with
  | none => curr
  | some p =>
      { curr with
          phase := ExtendedGamePhase.PLACEMENT
          currentPlayerIndex := startIndex
          resolutionStep := -1
          resolutionResults := []
          systemMessage := p.name ++ (" starts!") }

/-- The `CLAIM_START` branch of `handleIncomingDataHost`
(`src/unnamed/part_002` lines 255-261): look the claimant up by id and, if
found, run `startGamePhase` — with no check of the current phase. -/
def handleClaimStartHost (curr : GameState) (playerId : String) : GameState :=
  match curr.players.findIdx? (fun p => p.id == playerId) with
  | some pIdx => startGamePhase curr pIdx
  | none => curr

/-- Outcome of a local board click: either the handler returned without
acting, or (host) it invoked `executePlayCard` with these arguments, or
(client) it sent the corresponding `MOVE` message. -/
inductive ClickOutcome where
  | reject : ClickOutcome
  | play : String → Card → Nat → Bool → ClickOutcome
  | sendMove : String → Card → Nat → Bool → ClickOutcome
deriving DecidableEq, Repr

/-- `handleSegmentClick` from `src/unnamed/part_002` (lines 507-531):
phase guard, turn guard, selected-card guard, placement restriction, then
play (host) or send (client). An out-of-range `players[currentPlayerIndex]`
throws in the source before any action, modelled as a rejection. This
revision has no face-up-limit guard. -/
def handleSegmentClick (st : GameState) (definition : ClockDefinition)
    (myPlayerId : String) (selectedCardId : Option String) (playFaceUp : Bool)
    (isHost : Bool) (segmentIndex : Nat) : ClickOutcome :=
  if st.phase ≠ ExtendedGamePhase.PLACEMENT then ClickOutcome.reject
  else
    match st.players.get? st.currentPlayerIndex with
    | none => ClickOutcome.reject
    | some cp =>
      if cp.id ≠ myPlayerId then ClickOutcome.reject
      else
        match selectedCardId with
        | none => ClickOutcome.reject
        | some cid =>
          match (st.players.find? (fun p => p.id == myPlayerId)).bind
              (fun player => player.hand.find? (fun c => c.id == cid)) with
          | none => ClickOutcome.reject
          | some cardToPlay =>
            let ok : Bool :=
              match definition.placementRestriction with
              | some f => (f cardToPlay segmentIndex st.clockSegments st.cardsPlayedCount).passed
              | none => true
            if ok = false then ClickOutcome.reject
            else if isHost then ClickOutcome.play myPlayerId cardToPlay segmentIndex playFaceUp
            else ClickOutcome.sendMove myPlayerId cardToPlay segmentIndex playFaceUp

/-- `handleSegmentClick` as in the revision `src/unnamed/part_001`
(lines 574-601), which additionally rejects a face-up play once
`faceUpTokensUsed` has reached the face-up limit `players.length`. -/
def handleSegmentClickV1 (st : GameState) (definition : ClockDefinition)
    (myPlayerId : String) (selectedCardId : Option String) (playFaceUp : Bool)
    (isHost : Bool) (segmentIndex : Nat) : ClickOutcome :=
  if st.phase ≠ ExtendedGamePhase.PLACEMENT then ClickOutcome.reject
  else
    match st.players.get? st.currentPlayerIndex with
    | none => ClickOutcome.reject
    | some cp =>
      if cp.id ≠ myPlayerId then ClickOutcome.reject
      else
        match selectedCardId with
        | none => ClickOutcome.reject
        | some cid =>
          match (st.players.find? (fun p => p.id == myPlayerId)).bind
              (fun player => player.hand.find? (fun c => c.id == cid)) with
          | none => ClickOutcome.reject
          | some cardToPlay =>
            if playFaceUp = true ∧ st.players.length ≤ st.faceUpTokensUsed then
              ClickOutcome.reject
            else
              let ok : Bool :=
                match definition.placementRestriction with
                | some f => (f cardToPlay segmentIndex st.clockSegments st.cardsPlayedCount).passed
                | none => true
              if ok = false then ClickOutcome.reject
              else if isHost then ClickOutcome.play myPlayerId cardToPlay segmentIndex playFaceUp
              else ClickOutcome.sendMove myPlayerId cardToPlay segmentIndex playFaceUp

/-- `res.message || "Rule Failed"` — JavaScript falls through to the
default on a missing or empty message. -/
def jsMessageOr (message : Option String) (deflt : String) : String :=
  match message with
  | some m => if m = "" then deflt else m
  | none => deflt

/-- The verdict computed for slot `step` by one timer tick of the
resolution loop (`src/unnamed/part_002` lines 602-637): "Empty" for a
bare slot; else the mission's slot rule if present; else, past slot 0 and
only when the rule step passed or was absent, "Not Ascending" when the
slot sum drops below its predecessor's. -/
def resolutionVerdict (segments : List ClockSegment) (definition : ClockDefinition)
    (step : Nat) : ResolutionResult :=
  let segment := segAt segments step
  if segment.cards.isEmpty then { index := step, passed := false, message := "Empty" }
  else
    let ruleStep : Bool × String :=
      match definition.segmentRules step with
      | some rule =>
          let res := rule segment
          if res.passed then (true, "") else (false, jsMessageOr res.message ("Rule Failed"))
      | none => (true, "")
    if ruleStep.1 = true ∧ 0 < step then
      let prevSum := sumCards (segAt segments (step - 1)).cards
      let currSum := sumCards segment.cards
      if currSum < prevSum then { index := step, passed := false, message := "Not Ascending" }
      else { index := step, passed := ruleStep.1, message := ruleStep.2 }
    else { index := step, passed := ruleStep.1, message := ruleStep.2 }

/-- The state change of one resolution tick: append the single new verdict
and advance the cursor by one (the timer body runs when the phase is
RESOLUTION and `0 ≤ resolutionStep < TOTAL_SEGMENTS`). -/
def resolutionTick (st : GameState) (definition : ClockDefinition) : GameState :=
  let r := resolutionVerdict st.clockSegments definition st.resolutionStep.toNat
  { st with
      resolutionResults := st.resolutionResults ++ [r]
      resolutionStep := st.resolutionStep + 1 }

/-- The terminal branch of the resolution effect (`src/unnamed/part_002`
lines 638-652): once the cursor reaches `TOTAL_SEGMENTS` the host re-runs
`validateClock` and surfaces "VICTORY!" when every result passed, else
"DEFEAT!". -/
def resolutionFinalMessage (segments : List ClockSegment)
    (definition : ClockDefinition) : String :=
  if (validateClock segments definition).all (fun r => r.passed) then "VICTORY!"
  else "DEFEAT!"

/-- `sanitizeStateForNetwork` strips only the executable `activeClockDef`
before a snapshot is sent; the modelled `GameState` already excludes it
(the snapshot carries `clockDefId`), so the sanitizer is the identity
here. -/
def sanitizeStateForNetwork (st : GameState) : GameState := st

/-- A host-to-replica reply sent by the JOIN branch of
`handleHostConnection`. -/
inductive HostReply where
  | stateUpdate : GameState → HostReply
  | error : String → HostReply
  | lobbyAck : HostReply
deriving DecidableEq, Repr

/-- The host-side bookkeeping touched by a JOIN: the (possibly null)
authoritative game state and the lobby member list `connectedPeersList`
(id/name pairs). Peer connection objects are not modelled. -/
structure HostNode where
  game : Option GameState
  connectedPeersList : List (String × String)
deriving DecidableEq, Repr

/-- The `connectedPeersList` update on JOIN: drop any stale entry for the
same id, then append the new one. -/
def joinUpdatePeers (peers : List (String × String)) (pid name : String) :
    List (String × String) :=
  (peers.filter (fun p => p.1 != pid)) ++ [(pid, name)]

/-- The JOIN branch of `handleHostConnection` (`src/unnamed/part_002`
lines 178-221): record the connection and lobby entry, then — when a game
is underway — reply with the sanitized current snapshot if the identity
matches an existing player, or with an ERROR if it does not. The game
state itself is never written. -/
def handleJoinHost (node : HostNode) (pid name : String) : HostNode × HostReply :=
  let node1 := { node with connectedPeersList := joinUpdatePeers node.connectedPeersList pid name }
  match node.game with
  | some st =>
      if st.phase ≠ ExtendedGamePhase.LOBBY then
        if st.players.any (fun p => p.id == pid) then
          (node1, HostReply.stateUpdate (sanitizeStateForNetwork st))
        else
          (node1, HostReply.error ("Game already in progress."))
      else (node1, HostReply.lobbyAck)
  | none => (node1, HostReply.lobbyAck)

/-! Concrete fixtures used by counterexamples and witnesses. -/

/-- A solar card as produced by `createDeck`. -/
def cardA : Card :=
  { id := "s-1", type := CardType.SOLAR, value := 1, isFaceUp := false, ownerId := none }

/-- A second solar card. -/
def cardB : Card :=
  { id := "s-2", type := CardType.SOLAR, value := 2, isFaceUp := false, ownerId := none }

/-- A lunar card. -/
def cardC : Card :=
  { id := "l-3", type := CardType.LUNAR, value := 3, isFaceUp := false, ownerId := none }

/-- A card whose id occurs in no fixture hand. -/
def ghostCard : Card :=
  { id := "s-9", type := CardType.SOLAR, value := 9, isFaceUp := false, ownerId := none }

/-- Fixture participants (host plus two remotes), one card each. -/
def playerA : Player := { id := "p0", name := "Ann", hand := [cardA], isLocal := true }

def playerB : Player := { id := "p1", name := "Ben", hand := [cardB], isLocal := false }

def playerC : Player := { id := "p2", name := "Cal", hand := [cardC], isLocal := false }

/-- The six-slot board as built by `initGame`, still empty. -/
def emptySegments : List ClockSegment :=
  (List.range TOTAL_SEGMENTS).map (fun i => { index := i, cards := [] })

/-- A three-participant fixture state with the given phase, turn index and
face-up counter. -/
def mkState (ph : ExtendedGamePhase) (cpi fup : Nat) : GameState :=
  { phase := ph, clockDefId := "c1-1", clockSegments := emptySegments,
    players := [playerA, playerB, playerC], currentPlayerIndex := cpi,
    faceUpTokensUsed := fup, cardsPlayedCount := 0, resolutionStep := -1,
    resolutionResults := [], systemMessage := "" }

/-- Start-selection fixture: no claim accepted yet, turn index 0. -/
def exStart : GameState := mkState ExtendedGamePhase.START_PLAYER_SELECTION 0 0

/-- Placement fixture: participant `p0` (index 0) is at the turn. -/
def exPlacement : GameState := mkState ExtendedGamePhase.PLACEMENT 0 0

/-- Placement fixture whose face-up counter already equals the participant
count (three face-up cards have been played game-wide). -/
def exFaceUpLimit : GameState := mkState ExtendedGamePhase.PLACEMENT 0 3

/-- A mission with no restriction and no rules (`segmentRules` empty,
no `globalRules`, no `maxTotal`, starting slot 0). -/
def trivialDef : ClockDefinition :=
  { id := "t-none", startingSegmentIndex := 0, maxTotal := none,
    segmentRules := fun _ => none, globalRules := none, placementRestriction := none }

/-- A mission whose placement restriction rejects every move — the
situation the bot fallback exists for. -/
def alwaysFailDef : ClockDefinition :=
  { id := "t-fail", startingSegmentIndex := 0, maxTotal := none,
    segmentRules := fun _ => none, globalRules := none,
    placementRestriction := some (fun _ _ _ _ => { passed := false, message := none }) }

/-- A fully-played board: slot `i` holds one card of value `i + 1`, so all
slots are non-empty and the sums ascend 1..6. -/
def exSegsAsc : List ClockSegment :=
  (List.range TOTAL_SEGMENTS).map (fun i =>
    { index := i,
      cards := [{ id := "t-" ++ toString i, type := CardType.SOLAR, value := i + 1,
                  isFaceUp := true, ownerId := none }] })

/-- "The participant at the current turn index is the one with this id"
(the check `players[currentPlayerIndex].id === myPlayerId`). -/
def currentTurnPlayerIs (st : GameState) (pid : String) : Prop :=
  ∃ cp, st.players.get? st.currentPlayerIndex = some cp ∧ cp.id = pid

/-- C10: For every call to the host's play-card mutation with an in-range
target slot index `s`, only slot `s` changes among the board's slots: the
board keeps its length, every other slot's card sequence is unchanged, and
slot `s` is its prior sequence with exactly the played card (face flag and
owner resolved) appended at the end. -/
theorem playCardFrame (st : GameState) (playerId : String) (card : Card)
    (s : Nat) (faceUp : Bool) (hs : s < st.clockSegments.length) :
    ((executePlayCard st playerId card s faceUp).clockSegments.length
        = st.clockSegments.length)
    ∧ (∀ j, j < st.clockSegments.length → j ≠ s →
        (executePlayCard st playerId card s faceUp).clockSegments[j]?
          = st.clockSegments[j]?)
    ∧ (executePlayCard st playerId card s faceUp).clockSegments[s]?
        = some { segAt st.clockSegments s with
                 cards := (segAt st.clockSegments s).cards
                   ++ [{ card with isFaceUp := faceUp, ownerId := some playerId }] } := by
  refine ⟨?_, ?_, ?_⟩
  · simp [executePlayCard]
  · intro j hj hne
    simp only [executePlayCard]
    exact List.getElem?_set_ne (fun h => hne (h.symm))
  · simp only [executePlayCard]
    exact List.getElem?_set_self hs

/-- Closed instance of `playCardFrame` on the placement fixture (the
frame part instantiated at the untouched slot 0). -/
theorem playCardFrameWitness :
    ((executePlayCard exPlacement ("p0") cardA 2 true).clockSegments.length
        = exPlacement.clockSegments.length)
    ∧ ((executePlayCard exPlacement ("p0") cardA 2 true).clockSegments[0]?
        = exPlacement.clockSegments[0]?)
    ∧ (executePlayCard exPlacement ("p0") cardA 2 true).clockSegments[2]?
        = some { segAt exPlacement.clockSegments 2 with
                 cards := (segAt exPlacement.clockSegments 2).cards
                   ++ [{ cardA with isFaceUp := true, ownerId := some ("p0") }] } :=
  ⟨(playCardFrame exPlacement ("p0") cardA 2 true (by decide)).1,
   (playCardFrame exPlacement ("p0") cardA 2 true (by decide)).2.1 0 (by decide) (by decide),
   (playCardFrame exPlacement ("p0") cardA 2 true (by decide)).2.2⟩

/-- C9: when the host receives a JOIN while a game is under way (phase not
LOBBY), a known identity gets the current snapshot (`STATE_UPDATE`) and an
unknown identity gets an `ERROR`; the canonical game state is unchanged in
both cases. -/
theorem joinMidGameSpec (node : HostNode) (st : GameState) (pid name : String)
    (hgame : node.game = some st) (hphase : st.phase ≠ ExtendedGamePhase.LOBBY) :
    ((handleJoinHost node pid name).1.game = node.game)
    ∧ (st.players.any (fun p => p.id == pid) = true →
        (handleJoinHost node pid name).2 = HostReply.stateUpdate st)
    ∧ (st.players.any (fun p => p.id == pid) = false →
        (handleJoinHost node pid name).2 = HostReply.error ("Game already in progress.")) := by
  refine ⟨?_, ?_, ?_⟩
  · unfold handleJoinHost
    rw [hgame]
    by_cases hany : st.players.any (fun p => p.id == pid) = true
    · simp [hphase, hany]
    · simp [hphase, hany]
  · intro hany
    unfold handleJoinHost
    rw [hgame]
    simp [hphase, hany, sanitizeStateForNetwork]
  · intro hany
    unfold handleJoinHost
    rw [hgame]
    simp [hphase, hany]

/-- Closed instance of `joinMidGameSpec`: a mid-placement JOIN from the
known identity `p1` is answered with the snapshot, one from the unknown
identity `zz` with the error, and the game state is untouched. -/
theorem joinMidGameSpecWitness :
    ((handleJoinHost { game := some exPlacement, connectedPeersList := [] }
        ("p1") ("Ben")).1.game = some exPlacement)
    ∧ ((handleJoinHost { game := some exPlacement, connectedPeersList := [] }
        ("p1") ("Ben")).2 = HostReply.stateUpdate exPlacement)
    ∧ ((handleJoinHost { game := some exPlacement, connectedPeersList := [] }
        ("zz") ("Eve")).2 = HostReply.error ("Game already in progress.")) := by
  have h1 := joinMidGameSpec { game := some exPlacement, connectedPeersList := [] }
    exPlacement ("p1") ("Ben") rfl (by decide)
  have h2 := joinMidGameSpec { game := some exPlacement, connectedPeersList := [] }
    exPlacement ("zz") ("Eve") rfl (by decide)
  exact ⟨h1.1, h1.2.1 (by decide), h2.2.2 (by decide)⟩

/-- C5 (amended): the host accepts a start claim from any known
participant — regardless of the current phase — setting the turn index to
the claimant's index and the phase to PLACEMENT; a claim from an unknown
id leaves the state unchanged. Since no phase is checked, a claim arriving
after the first accepted one is applied the same way (last claim wins). -/
theorem startClaimAccepted (curr : GameState) (playerId : String) :
    (∀ i p, curr.players.findIdx? (fun q => q.id == playerId) = some i →
        curr.players.get? i = some p →
        handleClaimStartHost curr playerId
          = { curr with
                phase := ExtendedGamePhase.PLACEMENT
                currentPlayerIndex := i
                resolutionStep := -1
                resolutionResults := []
                systemMessage := p.name ++ (" starts!") })
    ∧ (curr.players.findIdx? (fun q => q.id == playerId) = none →
        handleClaimStartHost curr playerId = curr) := by
  constructor
  · intro i p hf hg
    have hg' : curr.players[i]? = some p := by
      rw [← List.get?_eq_getElem?]; exact hg
    simp [handleClaimStartHost, startGamePhase, hf, hg']
  · intro hf
    simp [handleClaimStartHost, hf]

/-- Closed instance of `startClaimAccepted`: `p1`'s claim on the
start-selection fixture moves the game to PLACEMENT with turn index 1. -/
theorem startClaimAcceptedWitness :
    handleClaimStartHost exStart ("p1")
      = { exStart with
            phase := ExtendedGamePhase.PLACEMENT
            currentPlayerIndex := 1
            resolutionStep := -1
            resolutionResults := []
            systemMessage := playerB.name ++ (" starts!") } :=
  (startClaimAccepted exStart ("p1")).1 1 playerB (by decide) (by decide)

/-- C5 counterexample: after the first start claim (`p1`) has been
accepted and the phase is already PLACEMENT with turn index 1, a second
claim (`p2`) is *not* ignored: it changes the turn index to 2. -/
theorem secondStartClaimOverrides :
    (handleClaimStartHost exStart ("p1")).phase = ExtendedGamePhase.PLACEMENT
    ∧ (handleClaimStartHost exStart ("p1")).currentPlayerIndex = 1
    ∧ (handleClaimStartHost (handleClaimStartHost exStart ("p1")) ("p2")).currentPlayerIndex = 2
    ∧ (2 : Nat) ≠ 1 := by decide

/-- C1 counterexample: the authoritative node applies a network MOVE even
when the phase is not PLACEMENT (first instance) and even when the
submitter is not the participant at the current turn index (second
instance); in both cases the canonical state changes. -/
theorem hostMoveAppliedWithoutChecks :
    exStart.phase ≠ ExtendedGamePhase.PLACEMENT
    ∧ handleMoveHost exStart ("p1") cardB 1 false ≠ exStart
    ∧ (handleMoveHost exStart ("p1") cardB 1 false).cardsPlayedCount
        = exStart.cardsPlayedCount + 1
    ∧ exPlacement.phase = ExtendedGamePhase.PLACEMENT
    ∧ (exPlacement.players.getD exPlacement.currentPlayerIndex dummyPlayer).id ≠ ("p2")
    ∧ handleMoveHost exPlacement ("p2") cardC 1 false ≠ exPlacement := by decide

/-- C1 (amended): the phase and turn checks exist only in the local click
handler — `handleSegmentClick` returns without acting whenever the phase
is not PLACEMENT or the local player is not at the current turn index —
while the host's handling of a network MOVE applies the move
unconditionally (the play counter always increments). -/
theorem localClickGuardsOnly (st : GameState) (definition : ClockDefinition)
    (myPlayerId : String) (selectedCardId : Option String) (playFaceUp isHost : Bool)
    (segmentIndex : Nat) (playerId : String) (card : Card) (faceUp : Bool)
    (h : st.phase ≠ ExtendedGamePhase.PLACEMENT ∨ ¬ currentTurnPlayerIs st myPlayerId) :
    handleSegmentClick st definition myPlayerId selectedCardId playFaceUp isHost segmentIndex
        = ClickOutcome.reject
    ∧ (handleMoveHost st playerId card segmentIndex faceUp).cardsPlayedCount
        = st.cardsPlayedCount + 1 := by
  constructor
  · unfold handleSegmentClick
    by_cases hp : st.phase ≠ ExtendedGamePhase.PLACEMENT
    · rw [if_pos hp]
    · rw [if_neg hp]
      have hturn : ¬ currentTurnPlayerIs st myPlayerId := h.resolve_left hp
      cases hg : st.players.get? st.currentPlayerIndex with
      | none => rfl
      | some cp =>
        have hne : cp.id ≠ myPlayerId := fun he => hturn ⟨cp, hg, he⟩
        simp only [hg]
        rw [if_pos hne]
  · simp [handleMoveHost, executePlayCard]

/-- Closed instance of `localClickGuardsOnly` on the start-selection
fixture (phase is not PLACEMENT). -/
theorem localClickGuardsOnlyWitness :
    handleSegmentClick exStart trivialDef ("p0") (some ("s-1")) false true 0
        = ClickOutcome.reject
    ∧ (handleMoveHost exStart ("p1") cardB 1 false).cardsPlayedCount
        = exStart.cardsPlayedCount + 1 :=
  localClickGuardsOnly exStart trivialDef ("p0") (some ("s-1")) false true 0
    ("p1") cardB false (Or.inl (by decide))

/-- In a hand holding exactly one card with the played id, removing that
id shrinks the hand by exactly one. -/
theorem filter_ne_length_of_countP_one (l : List Card) (cid : String)
    (h : l.countP (fun c => c.id == cid) = 1) :
    (l.filter (fun c => c.id != cid)).length + 1 = l.length := by
  induction l with
  | nil => simp at h
  | cons a l ih =>
    rw [List.countP_cons] at h
    by_cases hac : (a.id == cid) = true
    · rw [if_pos hac] at h
      have hz : l.countP (fun c => c.id == cid) = 0 := by omega
      have hfl : l.filter (fun c => c.id != cid) = l := by
        rw [List.filter_eq_self]
        intro c hc
        have hcc := List.countP_eq_zero.mp hz c hc
        simpa using hcc
      have hcons : (a :: l).filter (fun c => c.id != cid)
          = l.filter (fun c => c.id != cid) := by
        rw [List.filter_cons, if_neg (by simpa using hac)]
      rw [hcons, hfl]
      simp
    · rw [if_neg hac] at h
      have h1 : l.countP (fun c => c.id == cid) = 1 := by omega
      have hcons : (a :: l).filter (fun c => c.id != cid)
          = a :: l.filter (fun c => c.id != cid) := by
        rw [List.filter_cons, if_pos (by simpa using hac)]
      rw [hcons]
      have hih := ih h1
      simp only [List.length_cons]
      omega

/-- C2 counterexample: a network MOVE from `p2` while the turn index is 0
is applied; the resulting turn index is `(indexOf p2 + 1) mod 3 = 0`, not
`(0 + 1) mod 3 = 1`, and since the submitted card id is not in `p2`'s
hand, `p2`'s hand size does not decrease either. -/
theorem turnAdvanceCounterexample :
    exPlacement.currentPlayerIndex = 0
    ∧ (exPlacement.currentPlayerIndex + 1) % exPlacement.players.length = 1
    ∧ (executePlayCard exPlacement ("p2") ghostCard 1 false).currentPlayerIndex = 0
    ∧ (0 : Nat) ≠ 1
    ∧ ((executePlayCard exPlacement ("p2") ghostCard 1 false).players.getD 2 dummyPlayer).hand.length
        = ((exPlacement.players.getD 2 dummyPlayer).hand.length) := by decide

/-- C2 (amended): for every applied move whose submitter is the
participant at the current turn index and whose card id occurs exactly
once in that participant's hand, the turn index advances to
`(turnIndexBefore + 1) mod participantCount` and that participant's hand
shrinks by exactly one card. -/
theorem inTurnMoveAdvance (st : GameState) (playerId : String) (card : Card)
    (segmentIndex : Nat) (faceUp : Bool)
    (hfind : st.players.findIdx? (fun p => p.id == playerId) = some st.currentPlayerIndex)
    (hcount : (st.players.getD st.currentPlayerIndex dummyPlayer).hand.countP
        (fun c => c.id == card.id) = 1) :
    (executePlayCard st playerId card segmentIndex faceUp).currentPlayerIndex
        = (st.currentPlayerIndex + 1) % st.players.length
    ∧ ((executePlayCard st playerId card segmentIndex faceUp).players.getD
          st.currentPlayerIndex dummyPlayer).hand.length + 1
        = (st.players.getD st.currentPlayerIndex dummyPlayer).hand.length := by
  obtain ⟨hlt, hid, -⟩ := List.findIdx?_eq_some_iff_getElem.mp hfind
  constructor
  · simp [executePlayCard, jsMoverNextIndex, hfind]
  · have hget : st.players[st.currentPlayerIndex]? = some (st.players[st.currentPlayerIndex]) :=
      List.getElem?_eq_getElem hlt
    have hgetD : st.players.getD st.currentPlayerIndex dummyPlayer
        = st.players[st.currentPlayerIndex] := by
      simp [List.getD_eq_getElem?_getD, hget]
    have hid' : st.players[st.currentPlayerIndex].id = playerId := by simpa using hid
    have hmap : (executePlayCard st playerId card segmentIndex faceUp).players.getD
        st.currentPlayerIndex dummyPlayer
        = { st.players[st.currentPlayerIndex] with
            hand := (st.players[st.currentPlayerIndex]).hand.filter
              (fun c => c.id != card.id) } := by
      simp only [executePlayCard]
      simp [List.getD_eq_getElem?_getD, hget, hid']
    rw [hmap, hgetD]
    exact filter_ne_length_of_countP_one _ _ (by rw [← hgetD]; exact hcount)

/-- Closed instance of `inTurnMoveAdvance`: the in-turn participant `p0`
plays its unique card on the placement fixture. -/
theorem inTurnMoveAdvanceWitness :
    (executePlayCard exPlacement ("p0") cardA 0 false).currentPlayerIndex
        = (exPlacement.currentPlayerIndex + 1) % exPlacement.players.length
    ∧ ((executePlayCard exPlacement ("p0") cardA 0 false).players.getD
          exPlacement.currentPlayerIndex dummyPlayer).hand.length + 1
        = (exPlacement.players.getD exPlacement.currentPlayerIndex dummyPlayer).hand.length :=
  inTurnMoveAdvance exPlacement ("p0") cardA 0 false (by decide) (by decide)

/-- C3 counterexample: with the face-up counter already equal to the
participant count (3), a face-up move — here even an in-turn one by `p0`
with its own card — is not rejected by the authoritative mutation: it is
applied and pushes the counter to 4, past the participant count. -/
theorem faceUpLimitExceeded :
    exFaceUpLimit.faceUpTokensUsed = exFaceUpLimit.players.length
    ∧ (executePlayCard exFaceUpLimit ("p0") cardA 0 true).faceUpTokensUsed
        = exFaceUpLimit.players.length + 1
    ∧ (executePlayCard exFaceUpLimit ("p0") cardA 0 true).players.length
        = exFaceUpLimit.players.length
    ∧ executePlayCard exFaceUpLimit ("p0") cardA 0 true ≠ exFaceUpLimit := by decide

/-- C3 (amended): the face-up allowance is enforced only by the local
click handler of the earlier revision (`handleSegmentClickV1`), which
rejects any face-up attempt once the counter has reached the participant
count; the authoritative `executePlayCard` applies a face-up move
unconditionally, incrementing the counter past the participant count
(which itself stays unchanged). -/
theorem faceUpGuardLocalOnly (st : GameState) (definition : ClockDefinition)
    (myPlayerId : String) (selectedCardId : Option String) (isHost : Bool)
    (segmentIndex : Nat) (playerId : String) (card : Card)
    (hlim : st.players.length ≤ st.faceUpTokensUsed) :
    handleSegmentClickV1 st definition myPlayerId selectedCardId true isHost segmentIndex
        = ClickOutcome.reject
    ∧ (executePlayCard st playerId card segmentIndex true).faceUpTokensUsed
        = st.faceUpTokensUsed + 1
    ∧ (executePlayCard st playerId card segmentIndex true).players.length
        = st.players.length := by
  refine ⟨?_, ?_, ?_⟩
  · unfold handleSegmentClickV1
    by_cases hp : st.phase ≠ ExtendedGamePhase.PLACEMENT
    · rw [if_pos hp]
    · rw [if_neg hp]
      cases hg : st.players.get? st.currentPlayerIndex with
      | none => rfl
      | some cp =>
        simp only [hg]
        by_cases hcp : cp.id ≠ myPlayerId
        · rw [if_pos hcp]
        · rw [if_neg hcp]
          cases selectedCardId with
          | none => rfl
          | some cid =>
            cases hfind : (st.players.find? (fun p => p.id == myPlayerId)).bind
                (fun player => player.hand.find? (fun c => c.id == cid)) with
            | none => simp only [hfind]
            | some cardToPlay =>
              simp only [hfind]
              rw [if_pos ⟨trivial, hlim⟩]
  · simp [executePlayCard]
  · simp [executePlayCard]

/-- Closed instance of `faceUpGuardLocalOnly` on the at-limit fixture. -/
theorem faceUpGuardLocalOnlyWitness :
    handleSegmentClickV1 exFaceUpLimit trivialDef ("p0") (some ("s-1")) true true 0
        = ClickOutcome.reject
    ∧ (executePlayCard exFaceUpLimit ("p0") cardA 0 true).faceUpTokensUsed
        = exFaceUpLimit.faceUpTokensUsed + 1
    ∧ (executePlayCard exFaceUpLimit ("p0") cardA 0 true).players.length
        = exFaceUpLimit.players.length :=
  faceUpGuardLocalOnly exFaceUpLimit trivialDef ("p0") (some ("s-1")) true 0
    ("p0") cardA (by decide)

/-- C4 counterexample: a one-card hand under a mission whose placement
restriction rejects every pair — `validBotMoves` is empty, so no (card,
slot) pair passes — with the fallback random draw landing on 3: the
selector returns the first card paired with slot 3, not slot 0. -/
theorem botFallbackRandomSlot :
    validBotMoves [cardA] emptySegments alwaysFailDef 0 = []
    ∧ findBestBotMove [cardA] emptySegments alwaysFailDef 0 0 3
        = some { card := cardA, segmentIndex := 3 }
    ∧ (3 : Nat) ≠ 0 := by decide

/-- C4 (amended): the selector returns `none` exactly when the hand is
empty; and whenever no (card, slot) pair passes the placement restriction
and the hand is non-empty, it falls back to the *first* card of the hand
paired with a randomly drawn slot index, which is some index below
`TOTAL_SEGMENTS` (not necessarily 0). -/
theorem botMoveSpec (hand : List Card) (segments : List ClockSegment)
    (definition : ClockDefinition) (cardsPlayedTotal randPick randSeg : Nat) :
    (findBestBotMove hand segments definition cardsPlayedTotal randPick randSeg = none
      ↔ hand = [])
    ∧ ((∀ c, c ∈ hand → ∀ i, i < TOTAL_SEGMENTS →
          isValidMove c i segments definition cardsPlayedTotal = false) →
        ∀ c rest, hand = c :: rest →
          findBestBotMove hand segments definition cardsPlayedTotal randPick randSeg
              = some { card := c, segmentIndex := randSeg % TOTAL_SEGMENTS }
            ∧ randSeg % TOTAL_SEGMENTS < TOTAL_SEGMENTS) := by
  constructor
  · cases hand with
    | nil => simp [findBestBotMove, validBotMoves]
    | cons c rest =>
      unfold findBestBotMove
      by_cases hv :
          (validBotMoves (c :: rest) segments definition cardsPlayedTotal).length > 0
      · rw [if_pos hv]
        constructor
        · intro hnone
          exfalso
          rw [List.get?_eq_none] at hnone
          have := Nat.mod_lt randPick hv
          omega
        · intro hc
          exact absurd hc (by simp)
      · rw [if_neg hv]
        simp
  · intro hnov c rest hhand
    have hvm : validBotMoves hand segments definition cardsPlayedTotal = [] := by
      unfold validBotMoves
      rw [List.flatMap_eq_nil_iff]
      intro x hx
      rw [List.map_eq_nil_iff, List.filter_eq_nil_iff]
      intro i hi
      have := hnov x hx i (List.mem_range.mp hi)
      simp [this]
    subst hhand
    unfold findBestBotMove
    rw [hvm]
    exact ⟨rfl, Nat.mod_lt randSeg (by decide)⟩

/-- Closed instance of `botMoveSpec` with the everything-fails mission and
fallback draw 9 (slot 9 mod 6 = 3). -/
theorem botMoveSpecWitness :
    findBestBotMove [cardB] emptySegments alwaysFailDef 0 0 9
        = some { card := cardB, segmentIndex := 9 % TOTAL_SEGMENTS }
    ∧ 9 % TOTAL_SEGMENTS < TOTAL_SEGMENTS :=
  (botMoveSpec [cardB] emptySegments alwaysFailDef 0 0 9).2 (by decide) cardB [] rfl

/-- Splitting a take at `m`: the first `m + n` elements are the first `m`
followed by the next `n`. -/
theorem take_add_split {α : Type} (l : List α) (m n : Nat) :
    l.take (m + n) = l.take m ++ (l.drop m).take n := by
  induction m generalizing l with
  | zero => simp
  | succ m ih =>
    cases l with
    | nil => simp
    | cons a l => simp [Nat.succ_add, ih]

/-- C6 counterexample: with the full 24-card deck and five participants,
`dealCards` hands out 4 cards each — 20 cards in total, not 12, and cards
13..20 of the deck are dealt. -/
theorem dealTotalNotTwelve :
    ((dealCards createDeckPool 5).map List.length).sum = 20
    ∧ (20 : Nat) ≠ 12 := by decide

/-- C6 (amended): for every 24-card (shuffled) deck and every *supported*
participant count (2, 3 or 4), each dealt hand has the per-count size
(6, 4 or 3 respectively), the dealt hands total exactly 12 cards, and the
cards dealt are exactly the first 12 of the deck — the rest stay undealt.
(For other counts, e.g. 5, the fixed total of 12 fails.) -/
theorem dealCardsSpec (deck : List Card) (pc : Nat)
    (hdeck : deck.length = 24) (hpc : pc = 2 ∨ pc = 3 ∨ pc = 4) :
    (∀ h, h ∈ dealCards deck pc → h.length = cardsPerPlayer pc)
    ∧ ((dealCards deck pc).map List.length).sum = 12
    ∧ (dealCards deck pc).flatten = deck.take 12 := by
  have e1 : deck.take 12 = deck.take 6 ++ (deck.drop 6).take 6 := by
    have := take_add_split deck 6 6
    simpa using this
  have e2 : deck.take 12 = deck.take 4 ++ (deck.drop 4).take 8 := by
    have := take_add_split deck 4 8
    simpa using this
  have e3 : (deck.drop 4).take 8 = (deck.drop 4).take 4 ++ (deck.drop 8).take 4 := by
    have := take_add_split (deck.drop 4) 4 4
    simpa using this
  have e4 : deck.take 12 = deck.take 3 ++ (deck.drop 3).take 9 := by
    have := take_add_split deck 3 9
    simpa using this
  have e5 : (deck.drop 3).take 9 = (deck.drop 3).take 3 ++ (deck.drop 6).take 6 := by
    have := take_add_split (deck.drop 3) 3 6
    simpa using this
  have e6 : (deck.drop 6).take 6 = (deck.drop 6).take 3 ++ (deck.drop 9).take 3 := by
    have := take_add_split (deck.drop 6) 3 3
    simpa using this
  rcases hpc with h | h | h <;> subst h
  · have hdeal : dealCards deck 2 = [deck.take 6, (deck.drop 6).take 6] := rfl
    refine ⟨?_, ?_, ?_⟩
    · intro x hx
      rw [hdeal] at hx
      simp only [List.mem_cons, List.not_mem_nil, or_false] at hx
      rcases hx with rfl | rfl <;> simp [cardsPerPlayer, hdeck]
    · rw [hdeal]
      simp [hdeck]
    · rw [hdeal, e1]
      simp
  · have hdeal : dealCards deck 3
        = [deck.take 4, (deck.drop 4).take 4, (deck.drop 8).take 4] := rfl
    refine ⟨?_, ?_, ?_⟩
    · intro x hx
      rw [hdeal] at hx
      simp only [List.mem_cons, List.not_mem_nil, or_false] at hx
      rcases hx with rfl | rfl | rfl <;> simp [cardsPerPlayer, hdeck]
    · rw [hdeal]
      simp [hdeck]
    · rw [hdeal, e2, e3]
      simp
  · have hdeal : dealCards deck 4
        = [deck.take 3, (deck.drop 3).take 3, (deck.drop 6).take 3,
           (deck.drop 9).take 3] := rfl
    refine ⟨?_, ?_, ?_⟩
    · intro x hx
      rw [hdeal] at hx
      simp only [List.mem_cons, List.not_mem_nil, or_false] at hx
      rcases hx with rfl | rfl | rfl | rfl <;> simp [cardsPerPlayer, hdeck]
    · rw [hdeal]
      simp [hdeck]
    · rw [hdeal, e4, e5, e6]
      simp

/-- Closed instance of `dealCardsSpec` at the 24-card pool with three
participants. -/
theorem dealCardsSpecWitness :
    ((dealCards createDeckPool 3).map List.length).sum = 12
    ∧ (dealCards createDeckPool 3).flatten = createDeckPool.take 12 :=
  ⟨(dealCardsSpec createDeckPool 3 (by decide) (Or.inr (Or.inl rfl))).2.1,
   (dealCardsSpec createDeckPool 3 (by decide) (Or.inr (Or.inl rfl))).2.2⟩

/-- When the slot is non-empty and its rule (if any) passes, the tick
verdict is decided by the ascending comparison alone: "Not Ascending" when
the slot sum drops below its predecessor's (slot 0 exempt), a pass
otherwise. -/
theorem resolutionVerdict_of_rule_true (segments : List ClockSegment)
    (definition : ClockDefinition) (c : Nat)
    (hne : (segAt segments c).cards ≠ [])
    (hpass : ∀ rule, definition.segmentRules c = some rule →
      (rule (segAt segments c)).passed = true) :
    resolutionVerdict segments definition c
      = if 0 < c ∧ sumCards (segAt segments c).cards
            < sumCards (segAt segments (c - 1)).cards
        then { index := c, passed := false, message := "Not Ascending" }
        else { index := c, passed := true, message := "" } := by
  rcases hsr : definition.segmentRules c with _ | rule
  · by_cases hclt : 0 < c
    · by_cases hlt : sumCards (segAt segments c).cards
          < sumCards (segAt segments (c - 1)).cards
      · simp [resolutionVerdict, hne, hsr, hclt, hlt]
      · simp [resolutionVerdict, hne, hsr, hclt, hlt]
    · simp [resolutionVerdict, hne, hsr, hclt]
  · have hp := hpass rule hsr
    by_cases hclt : 0 < c
    · by_cases hlt : sumCards (segAt segments c).cards
          < sumCards (segAt segments (c - 1)).cards
      · simp [resolutionVerdict, hne, hsr, hp, hclt, hlt]
      · simp [resolutionVerdict, hne, hsr, hp, hclt, hlt]
    · simp [resolutionVerdict, hne, hsr, hp, hclt]

/-- C7: a tick with the cursor at `c` (`0 ≤ c < 6`) appends exactly one
verdict and advances the cursor by one; the verdict fails with "Empty" on
a bare slot, fails whenever the mission's slot rule for `c` exists and
fails, and otherwise fails with "Not Ascending" exactly when `c > 0` and
slot `c`'s card-value sum is strictly below slot `c-1`'s — passing in
every remaining case. -/
theorem resolutionTickSpec (st : GameState) (definition : ClockDefinition)
    (h0 : 0 ≤ st.resolutionStep) (h6 : st.resolutionStep < (TOTAL_SEGMENTS : Int)) :
    ((resolutionTick st definition).resolutionResults
        = st.resolutionResults
          ++ [resolutionVerdict st.clockSegments definition st.resolutionStep.toNat])
    ∧ ((resolutionTick st definition).resolutionStep = st.resolutionStep + 1)
    ∧ (∀ c, c = st.resolutionStep.toNat →
        ((segAt st.clockSegments c).cards = [] →
          resolutionVerdict st.clockSegments definition c
            = { index := c, passed := false, message := "Empty" })
        ∧ ((segAt st.clockSegments c).cards ≠ [] →
            ∀ rule, definition.segmentRules c = some rule →
              (rule (segAt st.clockSegments c)).passed = false →
              (resolutionVerdict st.clockSegments definition c).passed = false)
        ∧ ((segAt st.clockSegments c).cards ≠ [] →
            (∀ rule, definition.segmentRules c = some rule →
              (rule (segAt st.clockSegments c)).passed = true) →
            (((resolutionVerdict st.clockSegments definition c).passed = true
                ↔ ¬ (0 < c ∧ sumCards (segAt st.clockSegments c).cards
                    < sumCards (segAt st.clockSegments (c - 1)).cards))
              ∧ ((resolutionVerdict st.clockSegments definition c
                    = { index := c, passed := false, message := "Not Ascending" })
                  ↔ (0 < c ∧ sumCards (segAt st.clockSegments c).cards
                      < sumCards (segAt st.clockSegments (c - 1)).cards))))) := by
  refine ⟨rfl, rfl, ?_⟩
  intro c _
  refine ⟨?_, ?_, ?_⟩
  · intro hempty
    simp [resolutionVerdict, hempty]
  · intro hne rule hrule hfail
    simp [resolutionVerdict, hne, hrule, hfail]
  · intro hne hpass
    rw [resolutionVerdict_of_rule_true st.clockSegments definition c hne hpass]
    by_cases hcond : 0 < c ∧ sumCards (segAt st.clockSegments c).cards
        < sumCards (segAt st.clockSegments (c - 1)).cards
    · simp [hcond]
    · simp [hcond]

/-- Closed instance of `resolutionTickSpec`: ticking the fully-played
ascending board at cursor 1. -/
theorem resolutionTickSpecWitness :
    (((resolutionTick
        { mkState ExtendedGamePhase.RESOLUTION 0 0 with
            clockSegments := exSegsAsc, resolutionStep := 1 } trivialDef).resolutionResults
        = ({ mkState ExtendedGamePhase.RESOLUTION 0 0 with
            clockSegments := exSegsAsc, resolutionStep := 1 } : GameState).resolutionResults
          ++ [resolutionVerdict exSegsAsc trivialDef 1])
    ∧ ((resolutionTick
        { mkState ExtendedGamePhase.RESOLUTION 0 0 with
            clockSegments := exSegsAsc, resolutionStep := 1 } trivialDef).resolutionStep = 2)) := by
  have h := resolutionTickSpec
    { mkState ExtendedGamePhase.RESOLUTION 0 0 with
        clockSegments := exSegsAsc, resolutionStep := 1 } trivialDef
    (by decide) (by decide)
  exact ⟨h.1, h.2.1⟩

/-! Spec-side re-statement of the full end-of-game validation, following
the specification's wording, to be compared with `validateClock`. -/

/-- Spec wording: "every slot non-empty". -/
def specAllSlotsNonEmpty (segments : List ClockSegment) : Prop :=
  ∀ seg ∈ segments, seg.cards ≠ []

/-- Spec wording: "sums non-decreasing end-to-end in mission-defined slot
order starting from the mission's designated starting slot". -/
def specSumsNonDecreasing (segments : List ClockSegment)
    (definition : ClockDefinition) : Prop :=
  ∀ i, 1 ≤ i → i < TOTAL_SEGMENTS →
    sumCards (segAt segments (rotIdx definition (i - 1))).cards
      ≤ sumCards (segAt segments (rotIdx definition i)).cards

/-- Spec wording: "each per-slot rule" passes. -/
def specSlotRulesPass (segments : List ClockSegment)
    (definition : ClockDefinition) : Prop :=
  ∀ j, j < TOTAL_SEGMENTS → ∀ rule, definition.segmentRules j = some rule →
    (rule (segAt segments j)).passed = true

/-- Spec wording: "the optional per-slot maximum total" is respected (for
a present, non-zero ceiling — a zero ceiling is falsy in the source and
never checked). -/
def specMaxTotalOk (segments : List ClockSegment)
    (definition : ClockDefinition) : Prop :=
  ∀ m, definition.maxTotal = some m → m ≠ 0 →
    ∀ j, j < TOTAL_SEGMENTS → sumCards (segAt segments j).cards ≤ m

/-- Spec wording: "the global rule" passes (when present). -/
def specGlobalRulePasses (segments : List ClockSegment)
    (definition : ClockDefinition) : Prop :=
  ∀ g, definition.globalRules = some g → (g segments).passed = true

/-- The visited slot index is always a valid slot index. -/
theorem rotIdx_lt (definition : ClockDefinition) (i : Nat) :
    rotIdx definition i < TOTAL_SEGMENTS :=
  Nat.mod_lt _ (by decide)

/-- Over the six loop iterations, the visited slots cover every slot
index: the rotation by `startingSegmentIndex` is onto `0..5`. -/
theorem rotIdx_surj (definition : ClockDefinition) (j : Nat)
    (hj : j < TOTAL_SEGMENTS) :
    ∃ i, i < TOTAL_SEGMENTS ∧ rotIdx definition i = j := by
  refine ⟨(j + TOTAL_SEGMENTS - definition.startingSegmentIndex % TOTAL_SEGMENTS)
      % TOTAL_SEGMENTS, Nat.mod_lt _ (by decide), ?_⟩
  unfold rotIdx TOTAL_SEGMENTS at *
  omega

/-- The ascending check contributes nothing exactly when the iteration is
the first or the current sum has not dropped. -/
theorem ascendCheck_eq_nil_iff (segments : List ClockSegment)
    (definition : ClockDefinition) (i : Nat) :
    ascendCheck segments definition i = []
      ↔ (i = 0 ∨ sumCards (segAt segments (rotIdx definition (i - 1))).cards
          ≤ sumCards (segAt segments (rotIdx definition i)).cards) := by
  unfold ascendCheck
  by_cases hi : i = 0
  · simp [hi]
  · rw [if_neg hi]
    by_cases hlt : sumCards (segAt segments (rotIdx definition i)).cards
        < sumCards (segAt segments (rotIdx definition (i - 1))).cards
    · rw [if_pos hlt]
      constructor
      · intro h
        exact absurd h (by simp)
      · intro h
        rcases h with h0 | hle
        · exact absurd h0 hi
        · omega
    · rw [if_neg hlt]
      constructor
      · intro _
        exact Or.inr (by omega)
      · intro _
        rfl

/-- The ceiling check contributes nothing exactly when any present,
non-zero ceiling bounds the visited slot's sum. -/
theorem maxTotalCheck_eq_nil_iff (segments : List ClockSegment)
    (definition : ClockDefinition) (i : Nat) :
    maxTotalCheck segments definition i = []
      ↔ (∀ m, definition.maxTotal = some m → m ≠ 0 →
          sumCards (segAt segments (rotIdx definition i)).cards ≤ m) := by
  unfold maxTotalCheck
  rcases hm : definition.maxTotal with _ | m
  · simp
  · dsimp only
    by_cases hc : m ≠ 0 ∧ m < sumCards (segAt segments (rotIdx definition i)).cards
    · rw [if_pos hc]
      constructor
      · intro h
        exact absurd h (by simp)
      · intro h
        have hle := h m rfl hc.1
        have hlt := hc.2
        omega
    · rw [if_neg hc]
      constructor
      · intro _ m' hm' hm0
        rw [Option.some_inj] at hm'
        subst hm'
        have hnlt : ¬ m < sumCards (segAt segments (rotIdx definition i)).cards :=
          fun hlt => hc ⟨hm0, hlt⟩
        omega
      · intro _
        rfl

/-- The slot-rule check contributes nothing exactly when the visited
slot's rule, if present, passes. -/
theorem segmentRuleCheck_eq_nil_iff (segments : List ClockSegment)
    (definition : ClockDefinition) (i : Nat) :
    segmentRuleCheck segments definition i = []
      ↔ (∀ rule, definition.segmentRules (rotIdx definition i) = some rule →
          (rule (segAt segments (rotIdx definition i))).passed = true) := by
  unfold segmentRuleCheck
  rcases hr : definition.segmentRules (rotIdx definition i) with _ | rule
  · simp
  · by_cases hp : (rule (segAt segments (rotIdx definition i))).passed = true
    · simp only [hp, if_pos]
      constructor
      · intro _ rule' hrule'
        rw [Option.some_inj] at hrule'
        subst hrule'
        exact hp
      · intro _; simp [hp]
    · simp only [Bool.not_eq_true] at hp
      simp only [hp, Bool.false_eq_true, if_false]
      constructor
      · intro h; exact absurd h (by simp)
      · intro h
        have := h rule rfl
        rw [hp] at this
        exact absurd this (by simp)

/-- One loop iteration contributes nothing exactly when all three of its
checks contribute nothing. -/
theorem validateStep_eq_nil_iff (segments : List ClockSegment)
    (definition : ClockDefinition) (i : Nat) :
    validateStep segments definition i = []
      ↔ (ascendCheck segments definition i = []
          ∧ maxTotalCheck segments definition i = []
          ∧ segmentRuleCheck segments definition i = []) := by
  unfold validateStep
  simp [List.append_eq_nil]

/-- Every entry `validateClock` accumulates is a failure entry. -/
theorem validateFailures_passed (segments : List ClockSegment)
    (definition : ClockDefinition) :
    ∀ r ∈ validateFailures segments definition, r.passed = false := by
  intro r hr
  unfold validateFailures at hr
  rcases List.mem_append.mp hr with hr | hr
  · rcases List.mem_append.mp hr with hr | hr
    · obtain ⟨seg, hseg, rfl⟩ := List.mem_map.mp hr
      rfl
    · obtain ⟨i, hi, hstep⟩ := List.mem_flatMap.mp hr
      unfold validateStep at hstep
      rcases List.mem_append.mp hstep with h2 | h2
      · rcases List.mem_append.mp h2 with h3 | h3
        · unfold ascendCheck at h3
          split at h3
          · simp at h3
          · split at h3
            · rw [List.mem_singleton.mp h3]
            · simp at h3

        · unfold maxTotalCheck at h3
          split at h3
          · split at h3
            · rw [List.mem_singleton.mp h3]
            · simp at h3
          · simp at h3
      · unfold segmentRuleCheck at h2
        split at h2
        case h_1 rule heq =>
          split at h2
          · simp at h2
          · rename_i hfail
            rw [List.mem_singleton.mp h2]
            exact Bool.not_eq_true _ |>.mp hfail
        case h_2 => simp at h2
  · split at hr
    case h_1 g heq =>
      split at hr
      · simp at hr
      · rename_i hfail
        rw [List.mem_singleton.mp hr]
        exact Bool.not_eq_true _ |>.mp hfail
    case h_2 => simp at hr

/-- `validateClock` reports all-passed exactly when it accumulated no
failure. -/
theorem validateClock_allPassed_iff (segments : List ClockSegment)
    (definition : ClockDefinition) :
    ((validateClock segments definition).all (fun r => r.passed) = true)
      ↔ validateFailures segments definition = [] := by
  unfold validateClock
  by_cases hf : validateFailures segments definition = []
  · simp [hf]
  · rw [if_neg hf]
    simp only [List.all_eq_true]
    constructor
    · intro hall
      exfalso
      obtain ⟨r, hr⟩ := List.exists_mem_of_ne_nil _ hf
      have h1 := validateFailures_passed segments definition r hr
      have h2 := hall r hr
      rw [h1] at h2
      exact absurd h2 (by simp)
    · intro he
      exact absurd he hf

/-- C8 (amended): once the resolution cursor reaches the slot count, the
terminal system message is "VICTORY!" (note the exclamation mark, as the
source writes it) if and only if the independently re-run full validation
passes in every part — every slot non-empty, sums non-decreasing in the
mission's slot order from its starting slot, every per-slot rule, any
present non-zero sum ceiling on each slot, and the global rule — and
otherwise it is "DEFEAT!". -/
theorem finalValidationSpec (segments : List ClockSegment)
    (definition : ClockDefinition) :
    (resolutionFinalMessage segments definition = "VICTORY!"
      ↔ (specAllSlotsNonEmpty segments
          ∧ specSumsNonDecreasing segments definition
          ∧ specSlotRulesPass segments definition
          ∧ specMaxTotalOk segments definition
          ∧ specGlobalRulePasses segments definition))
    ∧ (resolutionFinalMessage segments definition = "VICTORY!"
        ∨ resolutionFinalMessage segments definition = "DEFEAT!") := by
  have hmsg : resolutionFinalMessage segments definition = "VICTORY!"
      ↔ (validateClock segments definition).all (fun r => r.passed) = true := by
    unfold resolutionFinalMessage
    by_cases h : (validateClock segments definition).all (fun r => r.passed) = true
    · simp [h]
    · rw [if_neg h]
      constructor
      · intro hd
        exact absurd hd (by decide)
      · intro hh
        exact absurd hh h
  have hAiff : ((segments.filter (fun seg => seg.cards.isEmpty)).map
      (fun seg =>
        ({ passed := false,
           message := some ("Segment " ++ toString (seg.index + 1) ++ " is empty.") }
          : ValidationResult))) = []
      ↔ specAllSlotsNonEmpty segments := by
    rw [List.map_eq_nil_iff, List.filter_eq_nil_iff]
    unfold specAllSlotsNonEmpty
    constructor
    · intro h seg hseg
      have := h seg hseg
      simpa using this
    · intro h seg hseg
      have := h seg hseg
      simpa using this
  have hCiff : (match definition.globalRules with
      | some g => if (g segments).passed then [] else [g segments]
      | none => ([] : List ValidationResult)) = []
      ↔ specGlobalRulePasses segments definition := by
    unfold specGlobalRulePasses
    rcases hg : definition.globalRules with _ | g
    · simp
    · by_cases hp : (g segments).passed = true
      · simp only [hp, if_pos]
        constructor
        · intro _ g' hg'
          rw [Option.some_inj] at hg'
          subst hg'
          exact hp
        · intro _; simp [hp]
      · simp only [Bool.not_eq_true] at hp
        simp only [hp, Bool.false_eq_true, if_false]
        constructor
        · intro h
          exact absurd h (by simp)
        · intro h
          have := h g rfl
          rw [hp] at this
          exact absurd this (by simp)
  have hBiff : ((List.range TOTAL_SEGMENTS).flatMap (validateStep segments definition)) = []
      ↔ (specSumsNonDecreasing segments definition
          ∧ specMaxTotalOk segments definition
          ∧ specSlotRulesPass segments definition) := by
    rw [List.flatMap_eq_nil_iff]
    constructor
    · intro hnil
      have hsteps : ∀ i, i < TOTAL_SEGMENTS →
          (ascendCheck segments definition i = []
            ∧ maxTotalCheck segments definition i = []
            ∧ segmentRuleCheck segments definition i = []) := by
        intro i hi
        exact (validateStep_eq_nil_iff segments definition i).mp
          (hnil i (List.mem_range.mpr hi))
      refine ⟨?_, ?_, ?_⟩
      · intro i h1 h6
        have ha := (ascendCheck_eq_nil_iff segments definition i).mp (hsteps i h6).1
        rcases ha with h0 | hle
        · omega
        · exact hle
      · intro m hm hm0 j hj
        obtain ⟨i, hi, hrot⟩ := rotIdx_surj definition j hj
        have hmx := (maxTotalCheck_eq_nil_iff segments definition i).mp (hsteps i hi).2.1
        have := hmx m hm hm0
        rwa [hrot] at this
      · intro j hj rule hrule
        obtain ⟨i, hi, hrot⟩ := rotIdx_surj definition j hj
        have hrr := (segmentRuleCheck_eq_nil_iff segments definition i).mp (hsteps i hi).2.2
        rw [hrot] at hrr
        exact hrr rule hrule
    · rintro ⟨hs, hm, hr⟩ i hi'
      have hi := List.mem_range.mp hi'
      rw [validateStep_eq_nil_iff]
      refine ⟨?_, ?_, ?_⟩
      · rw [ascendCheck_eq_nil_iff]
        by_cases hi0 : i = 0
        · exact Or.inl hi0
        · exact Or.inr (hs i (by omega) hi)
      · rw [maxTotalCheck_eq_nil_iff]
        intro m hm' hm0
        exact hm m hm' hm0 _ (rotIdx_lt definition i)
      · rw [segmentRuleCheck_eq_nil_iff]
        intro rule hrule
        exact hr _ (rotIdx_lt definition i) rule hrule
  constructor
  · rw [hmsg, validateClock_allPassed_iff]
    unfold validateFailures
    rw [List.append_eq_nil, List.append_eq_nil, hAiff, hBiff, hCiff]
    tauto
  · unfold resolutionFinalMessage
    by_cases h : (validateClock segments definition).all (fun r => r.passed) = true
    · left; simp [h]
    · right; rw [if_neg h]

/-- C8 counterexample: on a fully-played, all-checks-passing board the
terminal message the source surfaces is "VICTORY!", which is not the
string "VICTORY" the claim states. -/
theorem victoryMessageExact :
    (validateClock exSegsAsc trivialDef).all (fun r => r.passed) = true
    ∧ resolutionFinalMessage exSegsAsc trivialDef = ("VICTORY!")
    ∧ ("VICTORY!" : String) ≠ ("VICTORY") := by decide

end TakeTime
